import Mathlib

/-! # simple_shell: the session loop and command dispatch of `entry_point.c`

A shallow embedding of `shell_main`, `handle_built_in`, `check_command` and
`create_process`.  The session record `information_s` is passed explicitly.
Everything the four functions call but do not define (the reader, the
tokenizer, the builtin handlers, the environment, the file system and the
process primitives) is collected in the record `Collaborators`; the
observable actions of a session are appended to the field `log`.
-/

namespace SimpleShell

/-- Observable actions, in the order in which the shell performs them. -/
inductive Event where
  /-- The prompt, `_puts("$ ")`. -/
  | prompt
  /-- The call `_putchar('\n')` at end of input. -/
  | newline
  /-- The call `putchar_err(NEG_ONE)`: flush of the error buffer. -/
  | flush_err
  /-- The resolver `check_file_in_path(info, path_var, name)` is asked for `name`. -/
  | path_lookup (path_var : Option String) (name : String)
  /-- The test `is_executable(info, name)` is made on the literal `name`. -/
  | exec_test (name : String)
  /-- A call of `fork()`; `ok` is false when it returns -1. -/
  | fork (ok : Bool)
  /-- A call of `execve(path, argv, environ)` in the child. -/
  | execve (path : Option String) (argv : List String)
  /-- A call of `print_error(info, msg)` with the line counter it is attributed to. -/
  | print_error (line : Nat) (msg : String)
  /-- A call of `perror(msg)`. -/
  | perror (msg : String)
  /-- A call of `create_history(info)`. -/
  | create_history
  deriving DecidableEq, Repr

/-- The fields of `information_s` that `entry_point.c` reads or writes.
`argv = []` stands for an absent argument vector and `path = none` for a
null `path`.  The declaration of the struct is in `shell.h`, which is not
part of the sources; `lines` is taken as a natural number. -/
structure information_s where
  /-- Raw text of the current command (`arg`). -/
  arg : String
  /-- Argument tokens of the current command. -/
  argv : List String
  /-- Path of the file to execute. -/
  path : Option String
  /-- Line counter used in diagnostics (`lines`). -/
  lines : Nat
  /-- Set when the current line has not been counted yet (`lc_flag`). -/
  lc_flag : Int
  /-- Last recorded exit status (`status`). -/
  status : Int
  /-- Code asked for by `exit`, or -1 (`error_code`). -/
  error_code : Int
  /-- Whether input comes from a terminal. -/
  is_interactive : Bool
  /-- Actions performed so far, oldest first. -/
  log : List Event
  deriving DecidableEq, Repr

/-- What `execve` does in the child: either the image is replaced and the
new program later terminates with the raw wait status `wstatus`, or the call
returns -1 with `errno`. -/
inductive ExecveResult where
  | replaced (wstatus : Int)
  | failed (errno : Int)
  deriving DecidableEq, Repr

/-- The functions `entry_point.c` calls and does not define. -/
structure Collaborators where
  /-- State after `get_input` has read the given command text. -/
  get_input : information_s → String → information_s
  /-- State after `set_info(info, av)` has tokenized the command. -/
  set_info : information_s → List String → information_s
  handle_cd : information_s → Int × information_s
  _printenv : information_s → Int × information_s
  handle_exit : information_s → Int × information_s
  handle_help : information_s → Int × information_s
  handle_alias : information_s → Int × information_s
  check_setenv : information_s → Int × information_s
  handle_history : information_s → Int × information_s
  check_unsetenv : information_s → Int × information_s
  /-- Value of an environment variable, `none` when it is not set. -/
  _getenv : information_s → String → Option String
  /-- Search of a command name along a search-path value. -/
  check_file_in_path : information_s → Option String → String → Option String
  /-- Whether the literal name is an executable file. -/
  is_executable : information_s → String → Bool
  /-- Whether `fork()` succeeds (`false`: it returns -1). -/
  fork : information_s → Bool
  /-- Outcome of `execve(path, argv, get_environ(info))` in the child. -/
  execve : information_s → Option String → List String → ExecveResult

/-- Diagnostics: what `print_error` and `perror` write. -/
def Event.is_diagnostic : Event → Bool
  | Event.print_error _ _ => true
  | Event.perror _ => true
  | _ => false

/-- Calls of `fork`: one for every invocation of the launcher. -/
def Event.is_fork : Event → Bool
  | Event.fork _ => true
  | _ => false

/-- Process actions: `fork` and `execve`. -/
def Event.is_launch : Event → Bool
  | Event.fork _ => true
  | Event.execve _ _ => true
  | _ => false

/-- Append one action to the log. -/
def emit (info : information_s) (e : Event) : information_s :=
  { info with log := info.log ++ [e] }

/-- The actions performed between two states of one session. -/
def emitted (before after : information_s) : List Event :=
  after.log.drop before.log.length

/-- Modelled from the spec: `from_terminal`, not in the sources; interactive
mode is fixed at session start and kept in the session state. -/
def from_terminal (info : information_s) : Bool :=
  info.is_interactive

/-- Character-wise comparison behind `_strcmp`: 0 when both texts end
together, otherwise the sign of the first difference. -/
def strcmp_chars : List Char → List Char → Int
  | [], [] => 0
  | [], _ :: _ => -1
  | _ :: _, [] => 1
  | c1 :: r1, c2 :: r2 =>
    if c1 = c2 then strcmp_chars r1 r2 else if c1.toNat < c2.toNat then -1 else 1

/-- Modelled from the spec: `_strcmp`, not in the sources; the dispatcher
needs exact string equality, so the result is 0 exactly for equal strings. -/
def _strcmp (s1 s2 : String) : Int :=
  strcmp_chars s1.data s2.data

/-- Modelled from the spec: `is_delimit`, not in the sources; whether the
character is one of the delimiters. -/
def is_delimit (c : Char) (delim : String) : Bool :=
  delim.data.contains c

/-- Modelled from the spec: `print_error`, not in the sources; emits a
diagnostic attributed to the current line counter. -/
def print_error (info : information_s) (msg : String) : information_s :=
  emit info (Event.print_error info.lines msg)

/-- Modelled from the spec: `clear_info`, not in the sources; resets the
per-command fields (tokens, path) before a line is read. -/
def clear_info (info : information_s) : information_s :=
  { info with argv := [], path := none }

/-- Modelled from the spec: `free_info`, not in the sources; releases the
per-iteration allocations, and with `all` every session resource. -/
def free_info (info : information_s) (all : Bool) : information_s :=
  if all then { info with argv := [], path := none, arg := "" }
  else { info with argv := [], path := none }

/-- Modelled from the spec: `create_history`, not in the sources; persists
the history and leaves the session fields alone. -/
def create_history (info : information_s) : information_s :=
  emit info Event.create_history

/-- The table `built_ints` of `handle_built_in`, in source order. -/
def built_ints (X : Collaborators) : List (String × (information_s → Int × information_s)) :=
  [("cd", X.handle_cd),
   ("env", X._printenv),
   ("exit", X.handle_exit),
   ("help", X.handle_help),
   ("alias", X.handle_alias),
   ("setenv", X.check_setenv),
   ("history", X.handle_history),
   ("unsetenv", X.check_unsetenv)]

/-- The `for` loop of `handle_built_in` over the rest of the table: the first
entry whose name compares equal to `argv[0]` has `lines` incremented and its
handler run, then the loop breaks; with no entry left the result stays -1. -/
def built_in_scan (a0 : String) (info : information_s) :
    List (String × (information_s → Int × information_s)) → Int × information_s
  | [] => (-1, info)
  | (type, func) :: rest =>
    if _strcmp a0 type = 0 then func { info with lines := info.lines + 1 }
    else built_in_scan a0 info rest

/-- The dispatcher `handle_built_in`: `none` when there is no `argv[0]` to compare. -/
def handle_built_in (X : Collaborators) (info : information_s) : Option (Int × information_s) :=
  match info.argv with
  | [] => none
  | a0 :: _ => some (built_in_scan a0 info (built_ints X))

/-- The dispatcher as the specification words it: a name among the eight
builtins increments `line_count` and runs that handler; any other first token
gives -1 and leaves the state alone. -/
def builtin_dispatcher_spec (X : Collaborators) (info : information_s) :
    Option (Int × information_s) :=
  match info.argv with
  | [] => none
  | a0 :: _ =>
    let counted := { info with lines := info.lines + 1 }
    if a0 = "cd" then some (X.handle_cd counted)
    else if a0 = "env" then some (X._printenv counted)
    else if a0 = "exit" then some (X.handle_exit counted)
    else if a0 = "help" then some (X.handle_help counted)
    else if a0 = "alias" then some (X.handle_alias counted)
    else if a0 = "setenv" then some (X.check_setenv counted)
    else if a0 = "unsetenv" then some (X.check_unsetenv counted)
    else if a0 = "history" then some (X.handle_history counted)
    else some (-1, info)


/-- Modelled from the spec: the reader, not in the sources, returns one line
of text; a newline can therefore only be the last character of the raw text
of a command. -/
def is_input_line (text : String) : Bool :=
  !(text.data.dropLast.contains '\n')

/-- The counting loop of `check_command` over the rest of `arg`: `word_count`
goes up by one for every character that is not a delimiter. -/
def count_words : List Char → Nat → Nat
  | [], word_count => word_count
  | c :: cs, word_count =>
    count_words cs (if !is_delimit c " \t\n" then word_count + 1 else word_count)

/-- The value `W_EXITCODE(ret, 0)` that `wait` reports for a child that
called `exit(ret)`. -/
def W_EXITCODE (ret : Int) : Int := (ret % 256) * 256

/-- The macro `WIFEXITED(w)`, that is `(w & 0x7f) == 0`. -/
def WIFEXITED (w : Int) : Bool := w % 128 == 0

/-- The macro `WEXITSTATUS(w)`, that is `(w & 0xff00) >> 8`. -/
def WEXITSTATUS (w : Int) : Int := (w / 256) % 256

/-- The value of `errno` for a permission error. -/
def EACCES : Int := 13

/-- The child branch of `create_process`, as the raw wait status the parent
receives: a failed `execve` ends the child with `exit(126)` on `EACCES` and
`exit(1)` otherwise; a replaced image ends as the new program does. -/
def child_branch (r : ExecveResult) : Int :=
  match r with
  | ExecveResult.replaced wstatus => wstatus
  | ExecveResult.failed errno =>
    if errno = EACCES then W_EXITCODE 126 else W_EXITCODE 1

/-- The launcher `create_process`, seen from the parent. -/
def create_process (X : Collaborators) (info : information_s) : information_s :=
  if X.fork info = false then
    emit (emit info (Event.fork false)) (Event.perror "Error:")
  else
    let forked := emit (emit info (Event.fork true)) (Event.execve info.path info.argv)
    let waited := { forked with status := child_branch (X.execve info info.path info.argv) }
    if WIFEXITED waited.status then
      let exited := { waited with status := WEXITSTATUS waited.status }
      if exited.status = 126 then print_error exited "Permission denied\n" else exited
    else waited

/-- Lines 109 to 114 of `check_command`: `path` is set to `argv[0]` and an
uncounted line is counted. -/
def count_line (info : information_s) (a0 : String) : information_s :=
  if info.lc_flag = 1 then
    { info with path := some a0, lines := info.lines + 1, lc_flag := 0 }
  else { info with path := some a0 }

/-- The first operand of the test at line 135: interactive, or a `PATH`
variable exists, or `argv[0]` starts with a slash. -/
def may_run_literal (X : Collaborators) (info : information_s) (a0 : String) : Bool :=
  from_terminal info || (X._getenv info "PATH=").isSome || a0.data.head? == some '/'

/-- The router `check_command`: `none` when there is no `argv[0]`.  The
session fields do not change between the calls of the collaborators at lines
126 and 135, which therefore all see the state `counted`; `is_executable` is
called only when the first operand of `&&` holds. -/
def check_command (X : Collaborators) (info : information_s) : Option information_s :=
  match info.argv with
  | [] => none
  | a0 :: _ =>
    let counted := count_line info a0
    if count_words counted.arg.data 0 = 0 then some counted
    else
      let path_var := X._getenv counted "PATH="
      let asked := emit counted (Event.path_lookup path_var a0)
      match X.check_file_in_path counted path_var a0 with
      | some p => some (create_process X { asked with path := some p })
      | none =>
        let literal := may_run_literal X counted a0
        let tested := if literal then emit asked (Event.exec_test a0) else asked
        if literal && X.is_executable counted a0 then some (create_process X tested)
        else if tested.arg.data.head? != some '\n' then
          some (print_error { tested with status := 127 } "not found\n")
        else some tested

/-- Lines 17 to 23 of `shell_main`: the per-command fields are reset, the
prompt is shown in interactive mode and the error buffer is flushed. -/
def begin_iteration (info : information_s) : information_s :=
  let cleared := clear_info info
  let prompted := if from_terminal cleared then emit cleared Event.prompt else cleared
  emit prompted Event.flush_err

/-- One iteration of the loop of `shell_main` (lines 17 to 41) on the lines
still to be read; the result is `read_result`, `built_in_return_value` and the
session state.  A successful read gives the length of the text as
`read_result`, which is never -1.  `none` when a collaborator left no
`argv[0]`. -/
def loop_body (X : Collaborators) (av : List String) (input : List String)
    (built_in_return_value : Int) (info : information_s) :
    Option (Int × Int × information_s) :=
  let flushed := begin_iteration info
  match input with
  | [] =>
    let ended := if from_terminal flushed then emit flushed Event.newline else flushed
    some (-1, built_in_return_value, free_info ended false)
  | line :: _ =>
    let parsed := X.set_info (X.get_input flushed line) av
    match handle_built_in X parsed with
    | none => none
    | some (r, handled) =>
      if r = -1 then
        match check_command X handled with
        | none => none
        | some routed => some (line.length, r, free_info routed false)
      else some (line.length, r, free_info handled false)

/-- The `while` loop of `shell_main` on the lines the reader still has; the
reader signals end-of-stream once they are used up, so after the iteration
that meets the end `read_result` is -1 and the loop is over. -/
def session_loop (X : Collaborators) (av : List String) :
    List String → Int → Int → information_s → Option (Int × Int × information_s)
  | [], read_result, built_in_return_value, info =>
    if read_result ≠ -1 ∧ built_in_return_value ≠ -2 then
      loop_body X av [] built_in_return_value info
    else some (read_result, built_in_return_value, info)
  | line :: rest, read_result, built_in_return_value, info =>
    if read_result ≠ -1 ∧ built_in_return_value ≠ -2 then
      match loop_body X av (line :: rest) built_in_return_value info with
      | none => none
      | some (r1, b1, info1) => session_loop X av rest r1 b1 info1
    else some (read_result, built_in_return_value, info)

/-- How `shell_main` hands its result to the process: a call of `exit` or a
`return`. -/
inductive Outcome where
  | exit (code : Int)
  | ret (value : Int)
  deriving DecidableEq, Repr

/-- The integer delivered, by either way. -/
def Outcome.value : Outcome → Int
  | Outcome.exit code => code
  | Outcome.ret value => value

/-- Lines 44 to 61 of `shell_main`: what happens once the loop is over. -/
def shell_finish (built_in_return_value : Int) (info : information_s) : Outcome :=
  let stored := create_history info
  let freed := free_info stored true
  if !from_terminal freed && freed.status != 0 then Outcome.exit freed.status
  else if built_in_return_value = -2 then
    if freed.error_code = -1 then Outcome.exit freed.status
    else Outcome.exit freed.error_code
  else Outcome.ret built_in_return_value

/-- The entry `shell_main` on a session whose reader delivers `input`. -/
def shell_main (X : Collaborators) (av : List String) (input : List String)
    (info : information_s) : Option Outcome :=
  match session_loop X av input 0 0 info with
  | none => none
  | some (_, built_in_return_value, last) => some (shell_finish built_in_return_value last)


/-! ## A concrete session world, used to run the definitions -/

/-- Splits a command text at spaces and tabs. -/
def split_words : List Char → List Char → List String
  | [], word => if word = [] then [] else [String.mk word]
  | c :: cs, word =>
    if c = ' ' ∨ c = '\t' then
      (if word = [] then split_words cs [] else String.mk word :: split_words cs [])
    else split_words cs (word ++ [c])

/-- Decimal value of a digit string. -/
def decimal_value (s : String) : Int :=
  s.data.foldl (fun n c => 10 * n + ((c.toNat : Int) - 48)) 0

/-- A tokenizer for the sample world: the words of `arg`, or `arg` itself
when it has no word. -/
def sample_set_info (info : information_s) (_av : List String) : information_s :=
  match split_words info.arg.data [] with
  | [] => { info with argv := [info.arg] }
  | w :: ws => { info with argv := w :: ws }

/-- An `exit` handler for the sample world: asks for termination, with the
code given as first argument if there is one. -/
def sample_exit (info : information_s) : Int × information_s :=
  match info.argv with
  | _ :: code :: _ => (-2, { info with error_code := decimal_value code })
  | _ => (-2, { info with error_code := -1 })

/-- A sample world: `PATH=/bin`, where `ls` and `false` are found, `./tool`
is executable in place and `/opt/locked` cannot be executed. -/
def sample_world : Collaborators where
  get_input := fun info line => { info with arg := line, lc_flag := 1 }
  set_info := sample_set_info
  handle_cd := fun info => (0, info)
  _printenv := fun info => (0, info)
  handle_exit := sample_exit
  handle_help := fun info => (0, info)
  handle_alias := fun info => (0, info)
  check_setenv := fun info => (1, info)
  handle_history := fun info => (0, info)
  check_unsetenv := fun info => (1, info)
  _getenv := fun _ name => if name = "PATH=" then some "/bin" else none
  check_file_in_path := fun _ _ name =>
    if name = "ls" then some "/bin/ls"
    else if name = "false" then some "/bin/false" else none
  is_executable := fun _ name => name = "./tool" || name = "/opt/locked"
  fork := fun _ => true
  execve := fun _ path _ =>
    if path = some "/bin/ls" then ExecveResult.replaced 0
    else if path = some "/bin/false" then ExecveResult.replaced (W_EXITCODE 1)
    else if path = some "./tool" then ExecveResult.replaced (W_EXITCODE 3)
    else if path = some "/opt/locked" then ExecveResult.failed EACCES
    else ExecveResult.failed 2

/-- A fresh session state. -/
def fresh (interactive : Bool) : information_s where
  arg := ""
  argv := []
  path := none
  lines := 0
  lc_flag := 0
  status := 0
  error_code := 0
  is_interactive := interactive
  log := []

/-! ## Sample states -/

/-- A blank command line as the sample tokenizer leaves it. -/
def blank_line : information_s :=
  { fresh false with arg := " \t\n", argv := [" \t\n"], lc_flag := 1 }

/-- The state in which the launcher is called on `/opt/locked`. -/
def locked_call : information_s :=
  { fresh false with
    arg := "/opt/locked", argv := ["/opt/locked"], path := some "/opt/locked", lines := 1 }

/-- The command `ls` as read and tokenized in the sample world. -/
def ls_line : information_s :=
  { fresh false with arg := "ls", argv := ["ls"], lc_flag := 1 }

/-- The unknown command `nosuch` as read and tokenized in the sample world. -/
def nosuch_line : information_s :=
  { fresh false with arg := "nosuch", argv := ["nosuch"], lc_flag := 1 }

/-- The command `./tool`, executable in place, as read and tokenized. -/
def tool_line : information_s :=
  { fresh false with arg := "./tool", argv := ["./tool"], lc_flag := 1 }

/-- The word `exit2`, longer than a builtin name, as read and tokenized. -/
def exit2_line : information_s :=
  { fresh false with arg := "exit2", argv := ["exit2"], lc_flag := 1 }

end SimpleShell

/-! ## Auxiliary facts -/

namespace SimpleShell

theorem strcmp_chars_eq_zero (a b : List Char) : strcmp_chars a b = 0 ↔ a = b := by
  induction a generalizing b with
  | nil => cases b <;> simp [strcmp_chars]
  | cons c r ih =>
    cases b with
    | nil => simp [strcmp_chars]
    | cons d t =>
      simp only [strcmp_chars, List.cons.injEq]
      by_cases h : c = d
      · simp [h, ih]
      · simp only [h, if_false, false_and, iff_false]
        split <;> decide

theorem strcmp_eq_zero (a b : String) : _strcmp a b = 0 ↔ a = b := by
  unfold _strcmp
  rw [strcmp_chars_eq_zero]
  exact String.ext_iff.symm

theorem is_delimit_iff (c : Char) :
    is_delimit c " \t\n" = true ↔ (c = ' ' ∨ c = '\t' ∨ c = '\n') := by
  have h : (" \t\n" : String).data = [' ', '\t', '\n'] := rfl
  simp [is_delimit, h]

theorem count_words_ge (cs : List Char) (n : Nat) : n ≤ count_words cs n := by
  induction cs generalizing n with
  | nil => simp [count_words]
  | cons c r ih =>
    simp only [count_words]
    split
    · exact Nat.le_trans (Nat.le_succ n) (ih (n + 1))
    · exact ih n

theorem count_words_blank (cs : List Char) (n : Nat)
    (h : ∀ c ∈ cs, c = ' ' ∨ c = '\t' ∨ c = '\n') : count_words cs n = n := by
  induction cs generalizing n with
  | nil => simp [count_words]
  | cons c r ih =>
    have hc : is_delimit c " \t\n" = true := (is_delimit_iff c).2 (h c (List.mem_cons_self c r))
    simp only [count_words, hc, Bool.not_true, Bool.false_eq_true, if_false]
    exact ih n (fun d hd => h d (List.mem_cons_of_mem c hd))

theorem count_words_pos (cs : List Char) (n : Nat)
    (h : ∃ c ∈ cs, c ≠ ' ' ∧ c ≠ '\t' ∧ c ≠ '\n') : n < count_words cs n := by
  induction cs generalizing n with
  | nil => simp at h
  | cons c r ih =>
    simp only [count_words]
    by_cases hc : is_delimit c " \t\n" = true
    · simp only [hc, Bool.not_true, Bool.false_eq_true, if_false]
      apply ih
      obtain ⟨d, hd, hne⟩ := h
      rcases List.mem_cons.1 hd with rfl | hd
      · exact absurd ((is_delimit_iff d).1 hc) (by tauto)
      · exact ⟨d, hd, hne⟩
    · have hfalse : is_delimit c " \t\n" = false := by simpa using hc
      simp only [hfalse, Bool.not_false, if_true]
      exact Nat.lt_of_lt_of_le (Nat.lt_succ_self n) (count_words_ge r (n + 1))

theorem emitted_of_log (a b : information_s) (evs : List Event)
    (h : b.log = a.log ++ evs) : emitted a b = evs := by
  simp [emitted, h]

theorem count_line_log (info : information_s) (a0 : String) :
    (count_line info a0).log = info.log := by
  unfold count_line; split <;> rfl

theorem count_line_status (info : information_s) (a0 : String) :
    (count_line info a0).status = info.status := by
  unfold count_line; split <;> rfl

theorem count_line_arg (info : information_s) (a0 : String) :
    (count_line info a0).arg = info.arg := by
  unfold count_line; split <;> rfl

theorem count_line_argv (info : information_s) (a0 : String) :
    (count_line info a0).argv = info.argv := by
  unfold count_line; split <;> rfl

theorem count_line_interactive (info : information_s) (a0 : String) :
    (count_line info a0).is_interactive = info.is_interactive := by
  unfold count_line; split <;> rfl

/-! ## The builtin dispatcher -/

/-- C4: `handle_built_in` is the dispatcher of the specification: a first
token equal to one of the eight builtin names has `lines` increased by one
and exactly that handler applied to the counted state, whose result is
returned; any other first token, such as the shorter `ex` or the longer
`exit2`, runs no handler, leaves the state as it is and gives -1. -/
theorem handle_built_in_refines_spec (X : Collaborators) (info : information_s) :
    handle_built_in X info = builtin_dispatcher_spec X info
    ∧ (∀ rest, info.argv = "ex" :: rest → handle_built_in X info = some (-1, info))
    ∧ (∀ rest, info.argv = "exit2" :: rest → handle_built_in X info = some (-1, info))
    ∧ (∀ a0 rest, info.argv = a0 :: rest →
        a0 ∉ ["cd", "env", "exit", "help", "alias", "setenv", "unsetenv", "history"] →
        handle_built_in X info = some (-1, info)) := by
  have key : handle_built_in X info = builtin_dispatcher_spec X info := by
    rcases hargv : info.argv with _ | ⟨a0, rest⟩
    · simp [handle_built_in, builtin_dispatcher_spec, hargv]
    · simp only [handle_built_in, builtin_dispatcher_spec, hargv, built_ints, built_in_scan,
        strcmp_eq_zero]
      split_ifs <;> simp_all
  refine ⟨key, ?_, ?_, ?_⟩
  · intro rest h
    rw [key]; simp [builtin_dispatcher_spec, h]
  · intro rest h
    rw [key]; simp [builtin_dispatcher_spec, h]
  · intro a0 rest h hn
    rw [key]
    simp only [List.mem_cons, List.mem_singleton, not_or, List.mem_nil_iff, or_false] at hn
    simp [builtin_dispatcher_spec, h, hn]

/-- A concrete run: `exit2` is not a builtin. -/
theorem handle_built_in_refines_spec_witness :
    handle_built_in sample_world exit2_line = some (-1, exit2_line) :=
  (handle_built_in_refines_spec sample_world exit2_line).2.2.1 [] rfl

theorem wait_exit_code (c : Int) (h0 : 0 ≤ c) (h1 : c < 256) :
    WIFEXITED (W_EXITCODE c) = true ∧ WEXITSTATUS (W_EXITCODE c) = c := by
  unfold WIFEXITED W_EXITCODE WEXITSTATUS
  constructor
  · simp only [beq_iff_eq]; omega
  · omega

theorem create_process_forked (X : Collaborators) (info : information_s) (c : Int)
    (hfork : X.fork info = true) (h0 : 0 ≤ c) (h1 : c < 256)
    (hchild : child_branch (X.execve info info.path info.argv) = W_EXITCODE c) :
    create_process X info =
      if c = 126 then
        { info with
          status := c
          log := info.log ++ [Event.fork true, Event.execve info.path info.argv,
            Event.print_error info.lines "Permission denied\n"] }
      else
        { info with
          status := c
          log := info.log ++ [Event.fork true, Event.execve info.path info.argv] } := by
  obtain ⟨hw, hs⟩ := wait_exit_code c h0 h1
  unfold create_process
  simp only [hfork, Bool.true_eq_false, if_false, hchild, hw, hs, if_true]
  split <;> simp [emit, print_error]

/-! ## The router: blank lines -/

/-- C6: on a raw line made only of spaces, tabs and newlines (the empty line
included) `check_command` only sets `path` and counts the line: nothing is
emitted, so the resolver is not asked, no process is launched and no
diagnostic is written, and `status` keeps its value. -/
theorem check_command_blank_line (X : Collaborators) (info : information_s)
    (a0 : String) (rest : List String) (hargv : info.argv = a0 :: rest)
    (hblank : ∀ c ∈ info.arg.data, c = ' ' ∨ c = '\t' ∨ c = '\n') :
    ∃ out, check_command X info = some out
      ∧ out = count_line info a0
      ∧ emitted info out = []
      ∧ out.status = info.status
      ∧ out.error_code = info.error_code
      ∧ out.argv = info.argv := by
  have hzero : count_words (count_line info a0).arg.data 0 = 0 := by
    rw [count_line_arg]; exact count_words_blank _ _ hblank
  refine ⟨count_line info a0, ?_, rfl, ?_, count_line_status info a0, ?_, count_line_argv info a0⟩
  · simp only [check_command, hargv, hzero, if_true]
  · exact emitted_of_log _ _ [] (by simp [count_line_log])
  · unfold count_line; split <;> rfl

/-- A concrete run on the line of a space, a tab and a
newline. -/
theorem check_command_blank_line_witness :
    ∃ out, check_command sample_world blank_line = some out
      ∧ out = count_line blank_line " \t\n"
      ∧ emitted blank_line out = []
      ∧ out.status = blank_line.status
      ∧ out.error_code = blank_line.error_code
      ∧ out.argv = blank_line.argv :=
  check_command_blank_line sample_world blank_line " \t\n" [] rfl (by decide)

/-! ## The launcher -/

/-- C9: when `fork` succeeds and the child ends by exiting with code `c`
between 0 and 255, `create_process` leaves `status = c` and writes the
"Permission denied" diagnostic exactly when `c = 126`.  A failed `execve`
ends the child with code 126 on a permission error and with 1 on any other
error, so the parent ends with status 126 and the diagnostic in the first
case, and with status 1 and no diagnostic in the second. -/
theorem create_process_exit_status (X : Collaborators) (info : information_s)
    (hfork : X.fork info = true) :
    (∀ c : Int, 0 ≤ c → c < 256 →
      child_branch (X.execve info info.path info.argv) = W_EXITCODE c →
      (create_process X info).status = c
      ∧ (Event.print_error info.lines "Permission denied\n"
            ∈ emitted info (create_process X info) ↔ c = 126)
      ∧ (emitted info (create_process X info)).filter Event.is_diagnostic =
          (if c = 126 then [Event.print_error info.lines "Permission denied\n"] else []))
    ∧ (∀ errno : Int, X.execve info info.path info.argv = ExecveResult.failed errno →
        child_branch (X.execve info info.path info.argv) =
          W_EXITCODE (if errno = EACCES then 126 else 1))
    ∧ (X.execve info info.path info.argv = ExecveResult.failed EACCES →
        (create_process X info).status = 126
        ∧ Event.print_error info.lines "Permission denied\n"
            ∈ emitted info (create_process X info))
    ∧ (∀ errno : Int, errno ≠ EACCES →
        X.execve info info.path info.argv = ExecveResult.failed errno →
        (create_process X info).status = 1
        ∧ (emitted info (create_process X info)).filter Event.is_diagnostic = []) := by
  have main : ∀ c : Int, 0 ≤ c → c < 256 →
      child_branch (X.execve info info.path info.argv) = W_EXITCODE c →
      (create_process X info).status = c
      ∧ (Event.print_error info.lines "Permission denied\n"
            ∈ emitted info (create_process X info) ↔ c = 126)
      ∧ (emitted info (create_process X info)).filter Event.is_diagnostic =
          (if c = 126 then [Event.print_error info.lines "Permission denied\n"] else []) := by
    intro c h0 h1 hchild
    rw [create_process_forked X info c hfork h0 h1 hchild]
    by_cases h126 : c = 126
    · simp [h126, emitted, Event.is_diagnostic]
    · simp [h126, emitted, Event.is_diagnostic]
  refine ⟨main, ?_, ?_, ?_⟩
  · intro errno he
    rw [he]
    simp only [child_branch]
    split <;> rfl
  · intro he
    have hchild : child_branch (X.execve info info.path info.argv) = W_EXITCODE 126 := by
      rw [he]; rfl
    obtain ⟨h1, h2, _⟩ := main 126 (by decide) (by decide) hchild
    exact ⟨h1, h2.2 rfl⟩
  · intro errno hne he
    have hchild : child_branch (X.execve info info.path info.argv) = W_EXITCODE 1 := by
      rw [he]; simp [child_branch, hne]
    obtain ⟨h1, _, h3⟩ := main 1 (by decide) (by decide) hchild
    exact ⟨h1, by simpa using h3⟩

/-- What every run of `create_process` writes: the call of `fork` first,
then no further `fork`, an `execve` only on the `path` and `argv` it was
given, and no diagnostic other than "Permission denied". -/
theorem create_process_shape (X : Collaborators) (st : information_s) :
    ∃ tail, (create_process X st).log = st.log ++ (Event.fork (X.fork st) :: tail)
      ∧ tail.filter Event.is_fork = []
      ∧ (∀ q args, Event.execve q args ∈ tail → q = st.path ∧ args = st.argv)
      ∧ (X.fork st = true → Event.execve st.path st.argv ∈ tail)
      ∧ (∀ n msg, Event.print_error n msg ∈ tail → msg = "Permission denied\n")
      ∧ (create_process X st).path = st.path
      ∧ (create_process X st).argv = st.argv := by
  cases hf : X.fork st with
  | false =>
    refine ⟨[Event.perror "Error:"], ?_, rfl, ?_, ?_, ?_, ?_, ?_⟩ <;>
      simp [create_process, hf, emit]
  | true =>
    by_cases hw : WIFEXITED (child_branch (X.execve st st.path st.argv)) = true
    · by_cases h126 : WEXITSTATUS (child_branch (X.execve st st.path st.argv)) = 126
      · refine ⟨[Event.execve st.path st.argv,
          Event.print_error st.lines "Permission denied\n"], ?_, rfl, ?_, ?_, ?_, ?_, ?_⟩ <;>
          simp [create_process, hf, emit, print_error, hw, h126]
      · refine ⟨[Event.execve st.path st.argv], ?_, rfl, ?_, ?_, ?_, ?_, ?_⟩ <;>
          simp [create_process, hf, emit, print_error, hw, h126]
    · refine ⟨[Event.execve st.path st.argv], ?_, rfl, ?_, ?_, ?_, ?_, ?_⟩ <;>
        simp [create_process, hf, emit, print_error, hw]

theorem may_run_literal_iff (X : Collaborators) (info : information_s) (a0 : String) :
    may_run_literal X info a0 = true ↔
      (info.is_interactive = true ∨ (X._getenv info "PATH=").isSome = true
        ∨ a0.data.head? = some '/') := by
  simp [may_run_literal, from_terminal, or_assoc]

theorem count_words_ne_zero (info : information_s) (a0 : String)
    (hword : ∃ c ∈ info.arg.data, c ≠ ' ' ∧ c ≠ '\t' ∧ c ≠ '\n') :
    count_words (count_line info a0).arg.data 0 ≠ 0 := by
  rw [count_line_arg]
  exact Nat.ne_of_gt (count_words_pos _ 0 hword)

/-- A concrete run: the file `/opt/locked` cannot be
executed, so the child exits with 126. -/
theorem create_process_exit_status_witness :
    (create_process sample_world locked_call).status = 126
    ∧ Event.print_error locked_call.lines "Permission denied\n"
        ∈ emitted locked_call (create_process sample_world locked_call) :=
  (create_process_exit_status sample_world locked_call rfl).2.2.1 (by decide)

/-! ## The router: resolved commands -/

/-- C7: on a line with at least one non-delimiter character for which the
resolver returns `p`, `check_command` sets `path` to `p` and invokes the
launcher once with `argv` unchanged; every `execve` of that run is on `p`
with that `argv`, never on `argv[0]` or another path; when `fork` succeeds
the `execve` on `p` is made, and when the child exits with code `c` the
status ends as `c`. -/
theorem check_command_resolved (X : Collaborators) (info : information_s)
    (a0 : String) (rest : List String) (p : String)
    (hargv : info.argv = a0 :: rest)
    (hword : ∃ c ∈ info.arg.data, c ≠ ' ' ∧ c ≠ '\t' ∧ c ≠ '\n')
    (hres : X.check_file_in_path (count_line info a0)
      (X._getenv (count_line info a0) "PATH=") a0 = some p) :
    ∃ launch out, check_command X info = some out
      ∧ out = create_process X launch
      ∧ launch.path = some p ∧ launch.argv = info.argv
      ∧ out.path = some p ∧ out.argv = info.argv
      ∧ ((emitted info out).filter Event.is_fork).length = 1
      ∧ (∀ q args, Event.execve q args ∈ emitted info out → q = some p ∧ args = info.argv)
      ∧ (X.fork launch = true →
          Event.execve (some p) info.argv ∈ emitted info out
          ∧ ∀ c : Int, 0 ≤ c → c < 256 →
              child_branch (X.execve launch (some p) info.argv) = W_EXITCODE c →
              out.status = c) := by
  have hcount := count_words_ne_zero info a0 hword
  obtain ⟨launch, hdef⟩ : ∃ launch : information_s, launch =
      { emit (count_line info a0)
          (Event.path_lookup (X._getenv (count_line info a0) "PATH=") a0) with
        path := some p } := ⟨_, rfl⟩
  have hl_argv : launch.argv = info.argv := by rw [hdef]; simp [emit, count_line_argv]
  have hl_path : launch.path = some p := by rw [hdef]
  have hl_log : launch.log = info.log ++
      [Event.path_lookup (X._getenv (count_line info a0) "PATH=") a0] := by
    rw [hdef]; simp [emit, count_line_log]
  have hrun : check_command X info = some (create_process X launch) := by
    rw [hdef]; simp only [check_command, hargv, hcount, if_false, hres]
  obtain ⟨tail, hlog, hforks, hexec, hdone, _, hpath, hargv2⟩ := create_process_shape X launch
  have hem : emitted info (create_process X launch) =
      Event.path_lookup (X._getenv (count_line info a0) "PATH=") a0
        :: Event.fork (X.fork launch) :: tail :=
    emitted_of_log _ _ _ (by rw [hlog, hl_log]; simp)
  refine ⟨launch, _, hrun, rfl, hl_path, hl_argv, hpath.trans hl_path,
    hargv2.trans hl_argv, ?_, ?_, ?_⟩
  · rw [hem]; simp [Event.is_fork, hforks]
  · intro q args hmem
    rw [hem] at hmem
    simp only [List.mem_cons, reduceCtorEq, false_or] at hmem
    have := hexec q args hmem
    exact ⟨this.1.trans hl_path, this.2.trans hl_argv⟩
  · intro hfork
    constructor
    · rw [hem]
      have := hdone hfork
      rw [hl_argv, hl_path] at this
      simp only [List.mem_cons, reduceCtorEq, false_or]
      exact this
    · intro c h0 h1 hchild
      rw [create_process_forked X launch c hfork h0 h1
        (by rw [hl_argv, hl_path]; exact hchild)]
      split <;> rfl

/-- A concrete run: `ls` is resolved to `/bin/ls`. -/
theorem check_command_resolved_witness :
    ∃ launch out, check_command sample_world ls_line = some out
      ∧ out = create_process sample_world launch
      ∧ launch.path = some "/bin/ls" ∧ launch.argv = ls_line.argv
      ∧ out.path = some "/bin/ls" ∧ out.argv = ls_line.argv
      ∧ ((emitted ls_line out).filter Event.is_fork).length = 1
      ∧ (∀ q args, Event.execve q args ∈ emitted ls_line out →
          q = some "/bin/ls" ∧ args = ls_line.argv)
      ∧ (sample_world.fork launch = true →
          Event.execve (some "/bin/ls") ls_line.argv ∈ emitted ls_line out
          ∧ ∀ c : Int, 0 ≤ c → c < 256 →
              child_branch (sample_world.execve launch (some "/bin/ls") ls_line.argv)
                = W_EXITCODE c →
              out.status = c) :=
  check_command_resolved sample_world ls_line "ls" [] "/bin/ls" rfl
    ⟨'l', by decide, by decide, by decide, by decide⟩ rfl

/-! ## The router: unresolved commands -/

/-- The unresolved command whose literal name passes the test of line 135:
the launcher is called on the state whose `path` is `argv[0]`. -/
theorem check_command_literal (X : Collaborators) (info : information_s)
    (a0 : String) (rest : List String)
    (hargv : info.argv = a0 :: rest)
    (hword : ∃ c ∈ info.arg.data, c ≠ ' ' ∧ c ≠ '\t' ∧ c ≠ '\n')
    (hres : X.check_file_in_path (count_line info a0)
      (X._getenv (count_line info a0) "PATH=") a0 = none)
    (hmay : may_run_literal X (count_line info a0) a0 = true)
    (hexe : X.is_executable (count_line info a0) a0 = true) :
    ∃ launch, check_command X info = some (create_process X launch)
      ∧ launch.path = some a0 ∧ launch.argv = info.argv
      ∧ launch.log = info.log ++
          [Event.path_lookup (X._getenv (count_line info a0) "PATH=") a0, Event.exec_test a0] := by
  have hcount := count_words_ne_zero info a0 hword
  refine ⟨emit (emit (count_line info a0)
    (Event.path_lookup (X._getenv (count_line info a0) "PATH=") a0)) (Event.exec_test a0),
    ?_, ?_, ?_, ?_⟩
  · simp only [check_command, hargv, hcount, if_false, hres, hmay, hexe, if_true, Bool.and_self]
  · unfold count_line; split <;> rfl
  · simp [emit, count_line_argv]
  · simp [emit, count_line_log]

/-- The unresolved command whose literal name fails the test of line 135:
nothing is launched, and status 127 with the "not found" diagnostic is
recorded unless the raw line starts with a newline. -/
theorem check_command_missing (X : Collaborators) (info : information_s)
    (a0 : String) (rest : List String)
    (hargv : info.argv = a0 :: rest)
    (hword : ∃ c ∈ info.arg.data, c ≠ ' ' ∧ c ≠ '\t' ∧ c ≠ '\n')
    (hres : X.check_file_in_path (count_line info a0)
      (X._getenv (count_line info a0) "PATH=") a0 = none)
    (hfail : (may_run_literal X (count_line info a0) a0
      && X.is_executable (count_line info a0) a0) = false) :
    ∃ out, check_command X info = some out
      ∧ out.log = info.log ++
          ([Event.path_lookup (X._getenv (count_line info a0) "PATH=") a0]
            ++ (if may_run_literal X (count_line info a0) a0 then [Event.exec_test a0] else [])
            ++ (if info.arg.data.head? = some '\n' then []
                else [Event.print_error (count_line info a0).lines "not found\n"]))
      ∧ out.status = (if info.arg.data.head? = some '\n' then info.status else 127) := by
  have hcount := count_words_ne_zero info a0 hword
  simp only [check_command, hargv, hcount, if_false, hres, hfail, Bool.false_eq_true]
  by_cases hfirst : info.arg.data.head? = some '\n'
  · cases hmay : may_run_literal X (count_line info a0) a0 <;>
      simp [emit, print_error, count_line_log, count_line_arg, count_line_status, hfirst]
  · cases hmay : may_run_literal X (count_line info a0) a0 <;>
      simp [emit, print_error, count_line_log, count_line_arg, count_line_status, hfirst]

/-- On a line of input with a non-delimiter character the first character
is not a newline: a newline can only end the line, and a line that starts
with its last character has no other character. -/
theorem input_line_first (text : String) (hline : is_input_line text = true)
    (hword : ∃ c ∈ text.data, c ≠ ' ' ∧ c ≠ '\t' ∧ c ≠ '\n') :
    text.data.head? ≠ some '\n' := by
  intro hhead
  rcases hdata : text.data with _ | ⟨c, t⟩
  · rw [hdata] at hhead; simp at hhead
  · rw [hdata] at hhead hword
    simp only [List.head?_cons, Option.some.injEq] at hhead
    subst hhead
    cases t with
    | nil =>
      obtain ⟨d, hd, _, _, hne⟩ := hword
      simp only [List.mem_singleton] at hd
      exact hne hd
    | cons d t2 =>
      simp [is_input_line, hdata, List.dropLast] at hline

/-- C5: on an input line with at least one non-delimiter character (so it
is not just a bare newline), when the resolver returns no path and the test
for running the literal name fails, `check_command` sets `status` to 127,
writes exactly one diagnostic, the "not found" one attributed to the current
line counter, and launches no process. -/
theorem check_command_not_found (X : Collaborators) (info : information_s)
    (a0 : String) (rest : List String)
    (hargv : info.argv = a0 :: rest)
    (hline : is_input_line info.arg = true)
    (hword : ∃ c ∈ info.arg.data, c ≠ ' ' ∧ c ≠ '\t' ∧ c ≠ '\n')
    (hres : X.check_file_in_path (count_line info a0)
      (X._getenv (count_line info a0) "PATH=") a0 = none)
    (hdirect : ¬ ((info.is_interactive = true
        ∨ (X._getenv (count_line info a0) "PATH=").isSome = true
        ∨ a0.data.head? = some '/')
      ∧ X.is_executable (count_line info a0) a0 = true)) :
    ∃ out, check_command X info = some out
      ∧ out.status = 127
      ∧ (emitted info out).filter Event.is_diagnostic =
          [Event.print_error (count_line info a0).lines "not found\n"]
      ∧ (emitted info out).filter Event.is_launch = [] := by
  have hfirst := input_line_first info.arg hline hword
  have hfail : (may_run_literal X (count_line info a0) a0
      && X.is_executable (count_line info a0) a0) = false := by
    rw [Bool.and_eq_false_iff]
    by_cases hmay : may_run_literal X (count_line info a0) a0 = true
    · right
      have h := (may_run_literal_iff X (count_line info a0) a0).1 hmay
      rw [count_line_interactive] at h
      cases hexe : X.is_executable (count_line info a0) a0
      · rfl
      · exact absurd ⟨h, hexe⟩ hdirect
    · left; simpa using hmay
  obtain ⟨out, hrun, hlog, hstatus⟩ := check_command_missing X info a0 rest hargv hword hres hfail
  have hem := emitted_of_log info out _ hlog
  refine ⟨out, hrun, by simp [hstatus, hfirst], ?_, ?_⟩
  · rw [hem]
    cases may_run_literal X (count_line info a0) a0 <;> simp [hfirst, Event.is_diagnostic]
  · rw [hem]
    cases may_run_literal X (count_line info a0) a0 <;> simp [hfirst, Event.is_launch]

/-- A concrete run on the unknown command `nosuch`. -/
theorem check_command_not_found_witness :
    ∃ out, check_command sample_world nosuch_line = some out
      ∧ out.status = 127
      ∧ (emitted nosuch_line out).filter Event.is_diagnostic =
          [Event.print_error (count_line nosuch_line "nosuch").lines "not found\n"]
      ∧ (emitted nosuch_line out).filter Event.is_launch = [] :=
  check_command_not_found sample_world nosuch_line "nosuch" [] rfl (by decide)
    ⟨'n', by decide, by decide, by decide, by decide⟩ rfl (by decide)

/-- C8: on a line with at least one non-delimiter character that the
resolver does not resolve, `check_command` invokes the launcher exactly when
(the shell is interactive, or a `PATH` variable exists, or `argv[0]` starts
with a slash) and the literal `argv[0]` is executable; it is then invoked on
`path = argv[0]` with `argv` unchanged, every `execve` is on that literal
name, and no "not found" diagnostic is written.  In non-interactive mode
with no `PATH` variable and a name without leading slash nothing is
launched, whether or not the name is executable. -/
theorem check_command_unresolved (X : Collaborators) (info : information_s)
    (a0 : String) (rest : List String)
    (hargv : info.argv = a0 :: rest)
    (hword : ∃ c ∈ info.arg.data, c ≠ ' ' ∧ c ≠ '\t' ∧ c ≠ '\n')
    (hres : X.check_file_in_path (count_line info a0)
      (X._getenv (count_line info a0) "PATH=") a0 = none) :
    ∃ out, check_command X info = some out
      ∧ ((∃ b, Event.fork b ∈ emitted info out) ↔
          ((info.is_interactive = true
              ∨ (X._getenv (count_line info a0) "PATH=").isSome = true
              ∨ a0.data.head? = some '/')
            ∧ X.is_executable (count_line info a0) a0 = true))
      ∧ ((∃ b, Event.fork b ∈ emitted info out) →
          (∃ launch, out = create_process X launch
              ∧ launch.path = some a0 ∧ launch.argv = info.argv
              ∧ (X.fork launch = true → Event.execve (some a0) info.argv ∈ emitted info out))
          ∧ ((emitted info out).filter Event.is_fork).length = 1
          ∧ (∀ q args, Event.execve q args ∈ emitted info out →
              q = some a0 ∧ args = info.argv)
          ∧ (∀ n, Event.print_error n "not found\n" ∉ emitted info out))
      ∧ (info.is_interactive = false →
          X._getenv (count_line info a0) "PATH=" = none →
          a0.data.head? ≠ some '/' →
          (emitted info out).filter Event.is_launch = []) := by
  have hiff := may_run_literal_iff X (count_line info a0) a0
  rw [count_line_interactive] at hiff
  by_cases hgo : may_run_literal X (count_line info a0) a0 = true
      ∧ X.is_executable (count_line info a0) a0 = true
  · obtain ⟨launch, hrun, hl_path, hl_argv, hl_log⟩ :=
      check_command_literal X info a0 rest hargv hword hres hgo.1 hgo.2
    obtain ⟨tail, hlog, hforks, hexec, hdone, hdiag, _, _⟩ := create_process_shape X launch
    have hem : emitted info (create_process X launch) =
        Event.path_lookup (X._getenv (count_line info a0) "PATH=") a0
          :: Event.exec_test a0 :: Event.fork (X.fork launch) :: tail :=
      emitted_of_log _ _ _ (by rw [hlog, hl_log]; simp)
    have hfork_mem : ∃ b, Event.fork b ∈ emitted info (create_process X launch) :=
      ⟨X.fork launch, by rw [hem]; simp⟩
    refine ⟨_, hrun, ⟨fun _ => ⟨hiff.1 hgo.1, hgo.2⟩, fun _ => hfork_mem⟩, fun _ => ⟨?_, ?_, ?_, ?_⟩, ?_⟩
    · refine ⟨launch, rfl, hl_path, hl_argv, fun hf => ?_⟩
      have := hdone hf
      rw [hl_path, hl_argv] at this
      rw [hem]; simp [this]
    · rw [hem]; simp [Event.is_fork, hforks]
    · intro q args hmem
      rw [hem] at hmem
      simp only [List.mem_cons, reduceCtorEq, false_or] at hmem
      have := hexec q args hmem
      exact ⟨this.1.trans hl_path, this.2.trans hl_argv⟩
    · intro n hmem
      rw [hem] at hmem
      simp only [List.mem_cons, reduceCtorEq, false_or] at hmem
      exact absurd (hdiag n _ hmem) (by decide)
    · intro hni hnp hslash
      have : may_run_literal X (count_line info a0) a0 = true → False := by
        intro h
        rcases hiff.1 h with h1 | h2 | h3
        · rw [hni] at h1; exact Bool.noConfusion h1
        · rw [hnp] at h2; exact Bool.noConfusion h2
        · exact hslash h3
      exact absurd hgo.1 this
  · have hfail : (may_run_literal X (count_line info a0) a0
        && X.is_executable (count_line info a0) a0) = false := by
      rw [Bool.and_eq_false_iff]
      cases hmay : may_run_literal X (count_line info a0) a0
      · left; rfl
      · right
        cases hexe : X.is_executable (count_line info a0) a0
        · rfl
        · exact absurd ⟨hmay, hexe⟩ hgo
    obtain ⟨out, hrun, hlog, _⟩ := check_command_missing X info a0 rest hargv hword hres hfail
    have hem := emitted_of_log info out _ hlog
    have hnofork : ¬ ∃ b, Event.fork b ∈ emitted info out := by
      rintro ⟨b, hb⟩
      rw [hem] at hb
      cases hmay : may_run_literal X (count_line info a0) a0 <;>
        by_cases hfirst : info.arg.data.head? = some '\n' <;>
        simp [hmay, hfirst] at hb
    refine ⟨out, hrun, ⟨fun h => absurd h hnofork, fun h => ?_⟩, fun h => absurd h hnofork, ?_⟩
    · exact absurd ⟨hiff.2 h.1, h.2⟩ hgo
    · intro _ _ _
      rw [hem]
      cases hmay : may_run_literal X (count_line info a0) a0 <;>
        by_cases hfirst : info.arg.data.head? = some '\n' <;>
        simp [hfirst, Event.is_launch]

/-- A concrete run: `./tool` is not on the search path
but executable in place, and a `PATH` variable exists. -/
theorem check_command_unresolved_witness :
    ∃ out, check_command sample_world tool_line = some out
      ∧ (∃ b, Event.fork b ∈ emitted tool_line out)
      ∧ (∃ launch, out = create_process sample_world launch
          ∧ launch.path = some "./tool" ∧ launch.argv = tool_line.argv
          ∧ (sample_world.fork launch = true →
              Event.execve (some "./tool") tool_line.argv ∈ emitted tool_line out))
      ∧ (∀ n, Event.print_error n "not found\n" ∉ emitted tool_line out) := by
  obtain ⟨out, hrun, hiff, hthen, _⟩ := check_command_unresolved sample_world tool_line
    "./tool" [] rfl ⟨'.', by decide, by decide, by decide, by decide⟩ rfl
  have hfork : ∃ b, Event.fork b ∈ emitted tool_line out := hiff.2 (by decide)
  exact ⟨out, hrun, hfork, (hthen hfork).1, (hthen hfork).2.2.2⟩

/-! ## The end of the session -/

theorem shell_finish_eq (b : Int) (last : information_s) :
    shell_finish b last =
      if last.is_interactive = false ∧ last.status ≠ 0 then Outcome.exit last.status
      else if b = -2 then
        (if last.error_code = -1 then Outcome.exit last.status
         else Outcome.exit last.error_code)
      else Outcome.ret b := by
  cases hi : last.is_interactive <;> by_cases hs : last.status = 0 <;>
    simp [shell_finish, create_history, free_info, emit, from_terminal, hi, hs]

theorem shell_main_of_loop (X : Collaborators) (av input : List String)
    (info0 : information_s) (rr b : Int) (last : information_s)
    (hloop : session_loop X av input 0 0 info0 = some (rr, b, last)) :
    shell_main X av input info0 = some (shell_finish b last) := by
  simp [shell_main, hloop]

/-- C1, as the code has it: when the loop ends on the terminate sentinel -2
with an explicit code `c` (not -1), the process exits with `c` if the shell
is interactive or the last status is 0; in non-interactive mode with a
nonzero last status the test of line 49 comes first and the process exits
with that status. -/
theorem shell_main_explicit_code (X : Collaborators) (av input : List String)
    (info0 : information_s) (rr : Int) (last : information_s) (c : Int)
    (hloop : session_loop X av input 0 0 info0 = some (rr, -2, last))
    (hc : last.error_code = c) (hne : c ≠ -1) :
    ((last.is_interactive = true ∨ last.status = 0) →
        shell_main X av input info0 = some (Outcome.exit c))
    ∧ (last.is_interactive = false → last.status ≠ 0 →
        shell_main X av input info0 = some (Outcome.exit last.status)) := by
  rw [shell_main_of_loop X av input info0 rr (-2) last hloop, shell_finish_eq]
  subst hc
  constructor
  · rintro (hi | hs)
    · simp [hi, hne]
    · simp [hs, hne]
  · intro hi hs
    simp [hi, hs]

/-- A concrete run: an interactive session with an
unknown command, which leaves status 127, and then `exit 42`. -/
theorem shell_main_explicit_code_witness :
    shell_main sample_world ["hsh"] ["nosuch", "exit 42"] (fresh true)
      = some (Outcome.exit 42) :=
  (shell_main_explicit_code sample_world ["hsh"] ["nosuch", "exit 42"] (fresh true)
    _ _ 42 rfl rfl (by decide)).1 (Or.inl rfl)

/-- C1 as stated fails: in the non-interactive session of an unknown command
followed by `exit 42` the loop ends on the sentinel -2 with explicit code 42
and last status 127, and the process exits with 127. -/
theorem shell_main_explicit_code_counterexample :
    (session_loop sample_world ["hsh"] ["nosuch", "exit 42"] 0 0 (fresh false)).map
        (fun r => (r.2.1, r.2.2.error_code, r.2.2.status, r.2.2.is_interactive))
        = some (-2, 42, 127, false)
    ∧ shell_main sample_world ["hsh"] ["nosuch", "exit 42"] (fresh false)
        = some (Outcome.exit 127)
    ∧ shell_main sample_world ["hsh"] ["nosuch", "exit 42"] (fresh false)
        ≠ some (Outcome.exit 42) := by
  decide

/-- C3: when the loop ends on the terminate sentinel -2 and no explicit code
was asked for (`error_code = -1`), the process exits with the last recorded
status, in interactive and in non-interactive mode alike. -/
theorem shell_main_exit_last_status (X : Collaborators) (av input : List String)
    (info0 : information_s) (rr : Int) (last : information_s)
    (hloop : session_loop X av input 0 0 info0 = some (rr, -2, last))
    (hc : last.error_code = -1) :
    shell_main X av input info0 = some (Outcome.exit last.status) := by
  rw [shell_main_of_loop X av input info0 rr (-2) last hloop, shell_finish_eq]
  simp [hc]

/-- A concrete run: a non-interactive session with
an unknown command and then a bare `exit`. -/
theorem shell_main_exit_last_status_witness :
    shell_main sample_world ["hsh"] ["nosuch", "exit"] (fresh false)
      = some (Outcome.exit 127) :=
  shell_main_exit_last_status sample_world ["hsh"] ["nosuch", "exit"] (fresh false)
    _ _ rfl rfl

/-- The iteration that meets the end of the stream. -/
theorem loop_body_end_of_stream (X : Collaborators) (av : List String) (b : Int)
    (info : information_s) :
    loop_body X av [] b info = some (-1, b,
      { info with
        argv := []
        path := none
        log := info.log
          ++ (if info.is_interactive then [Event.prompt] else [])
          ++ [Event.flush_err]
          ++ (if info.is_interactive then [Event.newline] else []) }) := by
  cases hi : info.is_interactive <;>
    simp [loop_body, begin_iteration, clear_info, free_info, emit, from_terminal, hi]

/-! ## The loop -/

theorem session_loop_stopped (X : Collaborators) (av input : List String)
    (rr b : Int) (info : information_s) (h : rr = -1 ∨ b = -2) :
    session_loop X av input rr b info = some (rr, b, info) := by
  have hg : ¬ (rr ≠ -1 ∧ b ≠ -2) := by
    rintro ⟨h1, h2⟩
    rcases h with h | h
    · exact h1 h
    · exact h2 h
  cases input <;> simp only [session_loop, hg, if_false]

theorem session_loop_step (X : Collaborators) (av input : List String)
    (rr b : Int) (info : information_s) (hrr : rr ≠ -1) (hb : b ≠ -2) :
    session_loop X av input rr b info =
      match loop_body X av input b info with
      | none => none
      | some (r1, b1, info1) => session_loop X av input.tail r1 b1 info1 := by
  have hg : rr ≠ -1 ∧ b ≠ -2 := ⟨hrr, hb⟩
  cases input with
  | nil =>
    rw [session_loop, if_pos hg, loop_body_end_of_stream]
    exact (session_loop_stopped X av [] (-1) b _ (Or.inl rfl)).symm
  | cons line rest =>
    rw [session_loop, if_pos hg]
    rfl

/-- The iteration on a line looks at the first line only. -/
theorem loop_body_head (X : Collaborators) (av : List String) (line : String)
    (rest : List String) (b : Int) (info : information_s) :
    loop_body X av (line :: rest) b info = loop_body X av [line] b info := rfl

/-- An iteration that read a line: `read_result` is the length of the line
and `built_in_return_value` is what `handle_built_in` returned for it. -/
theorem loop_body_read (X : Collaborators) (av : List String) (line : String)
    (rest : List String) (b : Int) (info : information_s) (r1 b1 : Int)
    (info1 : information_s)
    (hbody : loop_body X av (line :: rest) b info = some (r1, b1, info1)) :
    r1 = line.length
    ∧ ∃ handled, handle_built_in X
        (X.set_info (X.get_input (begin_iteration info) line) av) = some (b1, handled) := by
  simp only [loop_body] at hbody
  rcases hh : handle_built_in X
    (X.set_info (X.get_input (begin_iteration info) line) av) with _ | ⟨r, handled⟩
  · rw [hh] at hbody; simp at hbody
  · rw [hh] at hbody
    simp only at hbody
    by_cases hm : r = -1
    · simp only [hm, if_true] at hbody
      rcases hcc : check_command X handled with _ | routed
      · rw [hcc] at hbody; simp at hbody
      · rw [hcc] at hbody
        simp only [Option.some.injEq, Prod.mk.injEq] at hbody
        exact ⟨hbody.1.symm, handled, by rw [← hbody.2.1, hm]⟩
    · simp only [hm, if_false, Option.some.injEq, Prod.mk.injEq] at hbody
      exact ⟨hbody.1.symm, handled, by rw [← hbody.2.1]⟩

/-- A first token that is none of the eight builtin names gives -1. -/
theorem handle_built_in_other (X : Collaborators) (info : information_s)
    (a0 : String) (rest : List String) (hargv : info.argv = a0 :: rest)
    (hn : a0 ∉ ["cd", "env", "exit", "help", "alias", "setenv", "unsetenv", "history"]) :
    handle_built_in X info = some (-1, info) := by
  simp only [List.mem_cons, List.mem_singleton, not_or, List.mem_nil_iff, or_false] at hn
  simp [handle_built_in, hargv, built_ints, built_in_scan, strcmp_eq_zero, hn]

/-- Where a loop that ends on end-of-stream got its `built_in_return_value`:
with no line to read it is the value the loop started with; otherwise the
loop came to the last line in some state, and the value is what
`handle_built_in` returned for that line, kept by the iteration that met the
end of the stream. -/
theorem session_loop_end_trace (X : Collaborators) (av : List String) :
    ∀ (input : List String) (rr b0 : Int) (info : information_s) (b : Int)
      (last : information_s), rr ≠ -1 → b0 ≠ -2 →
      session_loop X av input rr b0 info = some (-1, b, last) →
      (input = [] ∧ b = b0)
      ∨ (∃ pre line rprev bprev st handled r1 st1,
          input = pre ++ [line] ∧ rprev ≠ -1 ∧ bprev ≠ -2
          ∧ session_loop X av input rr b0 info = session_loop X av [line] rprev bprev st
          ∧ handle_built_in X (X.set_info (X.get_input (begin_iteration st) line) av)
              = some (b, handled)
          ∧ loop_body X av [line] bprev st = some (r1, b, st1)
          ∧ loop_body X av [] b st1 = some (-1, b, last)) := by
  intro input
  induction input with
  | nil =>
    intro rr b0 info b last hrr hb0 hloop
    left
    rw [session_loop_step X av [] rr b0 info hrr hb0, loop_body_end_of_stream] at hloop
    simp only [List.tail_nil] at hloop
    rw [session_loop_stopped X av [] (-1) b0 _ (Or.inl rfl)] at hloop
    simp only [Option.some.injEq, Prod.mk.injEq, true_and] at hloop
    exact ⟨rfl, hloop.1.symm⟩
  | cons line rest ih =>
    intro rr b0 info b last hrr hb0 hloop
    right
    have hstep := session_loop_step X av (line :: rest) rr b0 info hrr hb0
    rcases hbody : loop_body X av (line :: rest) b0 info with _ | ⟨r1, b1, info1⟩
    · rw [hstep, hbody] at hloop; simp at hloop
    · rw [hbody] at hstep
      simp only [List.tail_cons] at hstep
      obtain ⟨hr1, handled, hh⟩ := loop_body_read X av line rest b0 info r1 b1 info1 hbody
      have hr1ne : r1 ≠ -1 := by rw [hr1]; omega
      have hb1ne : b1 ≠ -2 := by
        intro h2
        rw [hstep, session_loop_stopped X av rest r1 b1 info1 (Or.inr h2)] at hloop
        simp only [Option.some.injEq, Prod.mk.injEq] at hloop
        exact hr1ne hloop.1
      have hloop1 : session_loop X av rest r1 b1 info1 = some (-1, b, last) := by
        rw [← hstep]; exact hloop
      rcases ih r1 b1 info1 b last hr1ne hb1ne hloop1 with
        ⟨hnil, hbeq⟩ | ⟨pre, l2, rprev, bprev, st, h2, r2, st1, hin, hrp, hbp, hsl, hh2, hlb, hle⟩
      · subst hnil
        subst hbeq
        refine ⟨[], line, rr, b0, info, handled, r1, info1, rfl, hrr, hb0, rfl, hh, hbody, ?_⟩
        rw [session_loop_step X av [] r1 b info1 hr1ne hb1ne, loop_body_end_of_stream] at hloop1
        simp only [List.tail_nil] at hloop1
        rw [session_loop_stopped X av [] (-1) b _ (Or.inl rfl)] at hloop1
        rw [loop_body_end_of_stream]
        exact hloop1
      · refine ⟨line :: pre, l2, rprev, bprev, st, h2, r2, st1, by rw [hin]; rfl, hrp, hbp,
          ?_, hh2, hlb, hle⟩
        rw [hstep, hsl]

/-- C2, as the code has it: when a non-interactive session ends on
end-of-stream with no termination request, `shell_main` exits with the last
recorded status if that is nonzero and otherwise returns
`built_in_return_value`.  That value is 0 when there was no line to read, and
otherwise what `handle_built_in` returned for the last line read, which is -1
when the first token of that line is not a builtin name.  So an immediate
end-of-stream on empty input delivers the start status if nonzero and 0
otherwise.  The iteration that meets the end of the stream writes no
diagnostic, launches no process and leaves the status alone. -/
theorem shell_main_end_of_stream (X : Collaborators) (av input : List String)
    (info0 : information_s) (b : Int) (last : information_s)
    (hloop : session_loop X av input 0 0 info0 = some (-1, b, last))
    (hb : b ≠ -2) (hni : last.is_interactive = false) :
    shell_main X av input info0 =
        some (if last.status ≠ 0 then Outcome.exit last.status else Outcome.ret b)
    ∧ (∀ (b0 : Int) (info : information_s), info.is_interactive = false →
        ∃ out, loop_body X av [] b0 info = some (-1, b0, out)
          ∧ (emitted info out).filter Event.is_diagnostic = []
          ∧ (emitted info out).filter Event.is_launch = []
          ∧ out.status = info.status)
    ∧ (info0.is_interactive = false →
        shell_main X av [] info0 =
          some (if info0.status ≠ 0 then Outcome.exit info0.status else Outcome.ret 0))
    ∧ ((input = [] ∧ b = 0)
      ∨ (∃ pre line rprev bprev st handled r1 st1,
          input = pre ++ [line] ∧ rprev ≠ -1 ∧ bprev ≠ -2
          ∧ session_loop X av input 0 0 info0 = session_loop X av [line] rprev bprev st
          ∧ handle_built_in X (X.set_info (X.get_input (begin_iteration st) line) av)
              = some (b, handled)
          ∧ (∀ a0 rest,
              (X.set_info (X.get_input (begin_iteration st) line) av).argv = a0 :: rest →
              a0 ∉ ["cd", "env", "exit", "help", "alias", "setenv", "unsetenv", "history"] →
              b = -1)
          ∧ loop_body X av [line] bprev st = some (r1, b, st1)
          ∧ loop_body X av [] b st1 = some (-1, b, last))) := by
  refine ⟨?_, ?_, ?_, ?_⟩
  · rw [shell_main_of_loop X av input info0 (-1) b last hloop, shell_finish_eq]
    by_cases hs : last.status = 0 <;> simp [hni, hs, hb]
  · intro b0 info hi
    refine ⟨_, loop_body_end_of_stream X av b0 info, ?_, ?_, rfl⟩
    · rw [emitted_of_log info _ [Event.flush_err] (by simp [hi])]
      rfl
    · rw [emitted_of_log info _ [Event.flush_err] (by simp [hi])]
      rfl
  · intro hi
    have hloop0 : session_loop X av [] 0 0 info0 = loop_body X av [] 0 info0 := by
      simp [session_loop]
    rw [shell_main_of_loop X av [] info0 (-1) 0 _
      (hloop0.trans (loop_body_end_of_stream X av 0 info0)), shell_finish_eq]
    by_cases hs : info0.status = 0 <;> simp [hi, hs]
  · rcases session_loop_end_trace X av input 0 0 info0 b last (by decide) (by decide) hloop with
      h | ⟨pre, line, rprev, bprev, st, handled, r1, st1, hin, hrp, hbp, hsl, hh, hlb, hle⟩
    · exact Or.inl h
    · refine Or.inr ⟨pre, line, rprev, bprev, st, handled, r1, st1, hin, hrp, hbp, hsl, hh,
        ?_, hlb, hle⟩
      intro a0 rest hargv hn
      have hother := handle_built_in_other X _ a0 rest hargv hn
      rw [hh] at hother
      simp only [Option.some.injEq, Prod.mk.injEq] at hother
      exact hother.1

/-- A concrete run: the non-interactive session whose
input is at its end at once returns 0. -/
theorem shell_main_end_of_stream_witness :
    shell_main sample_world ["hsh"] [] (fresh false) = some (Outcome.ret 0) :=
  (shell_main_end_of_stream sample_world ["hsh"] [] (fresh false) 0 _ rfl
    (by decide) rfl).1

/-- C2 as stated fails: in the non-interactive session that runs `ls`
(found, exit code 0) and then meets the end of the stream, the last status is
0, and `shell_main` returns -1, the dispatcher result for `ls`, not 0. -/
theorem shell_main_end_of_stream_counterexample :
    (session_loop sample_world ["hsh"] ["ls"] 0 0 (fresh false)).map
        (fun r => (r.1, r.2.1, r.2.2.status, r.2.2.is_interactive))
        = some (-1, -1, 0, false)
    ∧ (shell_main sample_world ["hsh"] ["ls"] (fresh false)).map Outcome.value = some (-1)
    ∧ (shell_main sample_world ["hsh"] ["ls"] (fresh false)).map Outcome.value ≠ some 0 := by
  decide

/-- C10: after an iteration of the loop of `shell_main` the loop is over
exactly when the read of that iteration met the end of the stream or the
builtin dispatcher returned -2 in it; then the loop ends with the state of
that iteration.  After any other iteration, whatever status or diagnostic it
produced, the loop goes on: the state has its per-command fields reset and
the rest of the session is the loop on the remaining lines, which starts with
one more iteration. -/
theorem session_loop_stops_iff (X : Collaborators) (av input : List String)
    (rr b : Int) (info : information_s) (r1 b1 : Int) (info1 : information_s)
    (hrr : rr ≠ -1) (hb : b ≠ -2)
    (hbody : loop_body X av input b info = some (r1, b1, info1)) :
    ((r1 = -1 ∨ b1 = -2) ↔
        (input = [] ∨ ∃ line rest handled, input = line :: rest
          ∧ handle_built_in X (X.set_info (X.get_input (begin_iteration info) line) av)
              = some (-2, handled)))
    ∧ ((r1 = -1 ∨ b1 = -2) → session_loop X av input rr b info = some (r1, b1, info1))
    ∧ (¬ (r1 = -1 ∨ b1 = -2) →
        ∃ line rest, input = line :: rest
          ∧ info1.argv = [] ∧ info1.path = none
          ∧ session_loop X av input rr b info = session_loop X av rest r1 b1 info1
          ∧ session_loop X av rest r1 b1 info1 =
              match loop_body X av rest b1 info1 with
              | none => none
              | some (r2, b2, info2) => session_loop X av rest.tail r2 b2 info2) := by
  have hstep := session_loop_step X av input rr b info hrr hb
  rw [hbody] at hstep
  have hiff : (r1 = -1 ∨ b1 = -2) ↔
      (input = [] ∨ ∃ line rest handled, input = line :: rest
        ∧ handle_built_in X (X.set_info (X.get_input (begin_iteration info) line) av)
            = some (-2, handled)) := by
    cases input with
    | nil =>
      rw [loop_body_end_of_stream] at hbody
      simp only [Option.some.injEq, Prod.mk.injEq] at hbody
      simp [hbody.1.symm]
    | cons line rest =>
      simp only [loop_body] at hbody
      rcases hh : handle_built_in X
        (X.set_info (X.get_input (begin_iteration info) line) av) with _ | ⟨r, handled⟩
      · rw [hh] at hbody; simp at hbody
      · rw [hh] at hbody
        simp only at hbody
        have hlen : (line.length : Int) ≠ -1 := by omega
        have hr : r1 = line.length ∧ b1 = r := by
          by_cases hm : r = -1
          · simp only [hm, if_true] at hbody
            rcases hcc : check_command X handled with _ | routed
            · rw [hcc] at hbody; simp at hbody
            · rw [hcc] at hbody
              simp only [Option.some.injEq, Prod.mk.injEq] at hbody
              exact ⟨hbody.1.symm, hm ▸ hbody.2.1.symm⟩
          · simp only [hm, if_false, Option.some.injEq, Prod.mk.injEq] at hbody
            exact ⟨hbody.1.symm, hbody.2.1.symm⟩
        constructor
        · rintro (h | h)
          · exact absurd (hr.1 ▸ h) hlen
          · right
            have hr2 : r = -2 := hr.2 ▸ h
            exact ⟨line, rest, handled, rfl, by rw [hh, hr2]⟩
        · rintro (h | ⟨l2, r2, h2, hcons, hd⟩)
          · simp at h
          · right
            simp only [List.cons.injEq] at hcons
            rw [← hcons.1, hh] at hd
            simp only [Option.some.injEq, Prod.mk.injEq] at hd
            rw [hr.2]; exact hd.1
  refine ⟨hiff, ?_, ?_⟩
  · intro hstop
    rw [hstep]
    exact session_loop_stopped X av input.tail r1 b1 info1 hstop
  · intro hgo
    have hr1 : r1 ≠ -1 := fun h => hgo (Or.inl h)
    have hb1 : b1 ≠ -2 := fun h => hgo (Or.inr h)
    cases input with
    | nil => exact absurd (hiff.2 (Or.inl rfl)) hgo
    | cons line rest =>
      refine ⟨line, rest, rfl, ?_, ?_, hstep, session_loop_step X av rest r1 b1 info1 hr1 hb1⟩
      all_goals
        simp only [loop_body] at hbody
        rcases hh : handle_built_in X
          (X.set_info (X.get_input (begin_iteration info) line) av) with _ | ⟨r, handled⟩
        · rw [hh] at hbody; simp at hbody
        · rw [hh] at hbody
          simp only at hbody
          by_cases hm : r = -1
          · simp only [hm, if_true] at hbody
            rcases hcc : check_command X handled with _ | routed
            · rw [hcc] at hbody; simp at hbody
            · rw [hcc] at hbody
              simp only [Option.some.injEq, Prod.mk.injEq] at hbody
              rw [← hbody.2.2]; simp [free_info]
          · simp only [hm, if_false, Option.some.injEq, Prod.mk.injEq] at hbody
            rw [← hbody.2.2]; simp [free_info]

/-- A concrete run: the iteration on the unknown command
`nosuch` leaves status 127 and the loop goes on to the next read. -/
theorem session_loop_stops_iff_witness :
    ∃ info1, loop_body sample_world ["hsh"] ["nosuch"] 0 (fresh false) = some (6, -1, info1)
      ∧ info1.status = 127
      ∧ session_loop sample_world ["hsh"] ["nosuch"] 0 0 (fresh false)
          = session_loop sample_world ["hsh"] [] 6 (-1) info1 := by
  refine ⟨_, rfl, rfl, ?_⟩
  obtain ⟨line, rest, hcons, _, _, hgo, _⟩ :=
    (session_loop_stops_iff sample_world ["hsh"] ["nosuch"] 0 0 (fresh false) 6 (-1) _
      (by decide) (by decide) rfl).2.2 (by decide)
  cases hcons
  exact hgo

end SimpleShell
